import Mathlib

/-!
Shallow embedding of the BiteRank backend extraction-and-scoring pipeline.

Python floats are modelled as exact rationals (ℚ), Python ints as ℤ, and
Python `None` via `Option`.  `round(x, n)` is modelled as rounding
`x * 10^n` to the nearest integer and dividing back; the only divergence
from CPython is tie-breaking (CPython rounds ties to even), which no
development below depends on.  Network fetches, HTML parsing by
BeautifulSoup and JSON text decoding are abstracted at their boundaries:
each scraper is modelled as a function of the already-located payloads /
elements, with JSON decode failures represented by `Option.none`.
-/

namespace BiteRank

/-- Python `round(x, n)` on our rational model of floats. -/
def pyRound (x : ℚ) (n : ℕ) : ℚ := (round (x * 10 ^ n) : ℤ) / 10 ^ n

/-- Python `int(x)` on a float: truncation toward zero. -/
def pyInt (x : ℚ) : ℤ := if 0 ≤ x then ⌊x⌋ else ⌈x⌉

/-! ## services/value_calculator.py -/

/-- `TYPICAL_MEAL_CALORIES = 800`. -/
def TYPICAL_MEAL_CALORIES : ℚ := 800

/-- `TYPICAL_MEAL_PROTEIN = 30`. -/
def TYPICAL_MEAL_PROTEIN : ℚ := 30

/-- `TYPICAL_MEAL_PRICE = 9.0`. -/
def TYPICAL_MEAL_PRICE : ℚ := 9

/-- `TYPICAL_PRICE_PER_CALORIE = TYPICAL_MEAL_PRICE / TYPICAL_MEAL_CALORIES`. -/
def TYPICAL_PRICE_PER_CALORIE : ℚ := TYPICAL_MEAL_PRICE / TYPICAL_MEAL_CALORIES

/-- `_clamp(x, lo=0.0, hi=100.0)`; all call sites use the defaults. -/
def clamp (x : ℚ) : ℚ := max 0 (min 100 x)

/-- `calculate_satiety_score(calories, protein_grams)`.

The exponential `pow(2.718281828, -raw)` is not rational, so the function
is parametrised by `expNeg : ℚ → ℚ`, standing for `raw ↦ 2.718281828^(-raw)`;
every theorem below holds for an arbitrary such function. -/
def calculate_satiety_score (expNeg : ℚ → ℚ)
    (calories : Option ℤ) (protein_grams : Option ℚ) : ℚ :=
  match calories with
  | none => 0
  | some c =>
    if c ≤ 0 then 0
    else
      let p : ℚ := match protein_grams with
        | none => 0
        | some p => if p < 0 then 0 else p
      let cal_component := ((c : ℚ) / TYPICAL_MEAL_CALORIES) * (7 / 10)
      let protein_component := (p / TYPICAL_MEAL_PROTEIN) * (3 / 10)
      let raw := cal_component + protein_component
      let score := (1 - expNeg raw) * 100
      pyRound (clamp score) 1

/-- `calculate_price_efficiency_score(price, calories)`. -/
def calculate_price_efficiency_score (price : Option ℚ) (calories : Option ℤ) : ℚ :=
  match price, calories with
  | some p, some c =>
    if p ≤ 0 ∨ c ≤ 0 then 0
    else
      let deal_ppc := p / (c : ℚ)
      if deal_ppc ≤ 0 then 0
      else
        let r := TYPICAL_PRICE_PER_CALORIE / deal_ppc
        pyRound (clamp (r * 50)) 1
  | _, _ => 0

/-- The dict returned by `calculate_final_value_score`. -/
structure ScoreDict where
  value_score : ℚ
  satiety_score : ℚ
  price_per_calorie : ℚ
  price_efficiency_score : ℚ
  deriving DecidableEq, Repr

/-- `calculate_final_value_score(calories, protein_grams, price)`.

The `price_per_calorie` guard is Python truthiness:
`if calories and calories > 0`, i.e. calories is non-None and `> 0`. -/
def calculate_final_value_score (expNeg : ℚ → ℚ)
    (calories : Option ℤ) (protein_grams : Option ℚ) (price : ℚ) : ScoreDict :=
  let satiety := calculate_satiety_score expNeg calories protein_grams
  let price_eff := calculate_price_efficiency_score (some price) calories
  let final_score := satiety * (4 / 10) + price_eff * (6 / 10)
  { value_score := pyRound final_score 1
    satiety_score := pyRound satiety 1
    price_per_calorie :=
      match calories with
      | some c => if 0 < c then pyRound (price / (c : ℚ)) 4 else 0
      | none => 0
    price_efficiency_score := pyRound price_eff 1 }

/-! ## String and regex-scanning helpers shared by the scrapers

Python strings are modelled as Lean `String` / `List Char`; the small
regular expressions used by the scrapers are implemented as explicit
character scanners with the same leftmost-match, greedy semantics. -/

/-- Python whitespace (`\s` over ASCII, and the `str.strip` default). -/
def pySpace (c : Char) : Bool :=
  c = ' ' || c = '\t' || c = '\n' || c = '\r' || c = '\x0b' || c = '\x0c'

/-- Numeric value of a digit string (most significant first). -/
def digitsToNat (ds : List Char) : ℕ :=
  ds.foldl (fun a c => a * 10 + (c.toNat - 48)) 0

theorem length_dropWhile_le {α : Type} (p : α → Bool) (l : List α) :
    (l.dropWhile p).length ≤ l.length := by
  induction l with
  | nil => simp [List.dropWhile]
  | cons c rest ih =>
    rw [List.dropWhile_cons]
    split
    · exact le_trans ih (by simp)
    · simp

/-- `re.search(r"(\d+(?:\.\d{1,k})?)", s)` for `fracLimit = some k`
(and unbounded fractional digits for `none`), returning the value of the
first match: scan to the first digit, take the maximal digit run, then an
optional decimal point followed by at most `k` digits. -/
def scanNumber (fracLimit : Option ℕ) : List Char → Option ℚ
  | [] => none
  | c :: rest =>
    if c.isDigit then
      let intPart := (c :: rest).takeWhile Char.isDigit
      let after := (c :: rest).dropWhile Char.isDigit
      let frac : List Char :=
        match after with
        | '.' :: f =>
          let ds := f.takeWhile Char.isDigit
          match fracLimit with
          | some k => ds.take k
          | none => ds
        | _ => []
      if frac.isEmpty then some ((digitsToNat intPart : ℚ))
      else some ((digitsToNat intPart : ℚ) + (digitsToNat frac : ℚ) / 10 ^ frac.length)
    else scanNumber fracLimit rest

/-- `re.search(r"(\d{2,4})", s)`: the first digit run of length at least
two, truncated to four digits.  A digit run of length one cannot start a
match, so the scan resumes after it. -/
def scanDigits2to4 : List Char → Option ℕ
  | [] => none
  | c :: rest =>
    if c.isDigit then
      let run := (c :: rest).takeWhile Char.isDigit
      if 2 ≤ run.length then some (digitsToNat (run.take 4))
      else scanDigits2to4 (rest.dropWhile Char.isDigit)
    else scanDigits2to4 rest
termination_by cs => cs.length
decreasing_by
  · simp only [List.length_cons]
    have := length_dropWhile_le Char.isDigit rest
    omega
  · simp

/-- Replace each maximal whitespace run by a single space
(`re.sub(r"\s+", " ", s)`). -/
def collapseWs : List Char → List Char
  | [] => []
  | c :: rest =>
    if pySpace c then ' ' :: collapseWs (rest.dropWhile pySpace)
    else c :: collapseWs rest
termination_by cs => cs.length
decreasing_by
  · simp only [List.length_cons]
    have := length_dropWhile_le pySpace rest
    omega
  · simp

/-- Python `str.strip()` (default whitespace). -/
def stripWs (l : List Char) : List Char :=
  ((l.dropWhile pySpace).reverse.dropWhile pySpace).reverse

/-- Python `str.lower()` (names in this development are ASCII). -/
def pyLower (s : String) : String := String.mk (s.data.map Char.toLower)

/-- First-occurrence deduplication keyed by `key`, carrying the set of
already-seen keys — the shape of the `seen`/append loops in
`UberEatsScraper.fetch_menu` and `UberEatsStoreSearch._parse_search_results`. -/
def dedupByKey {α κ : Type} [DecidableEq κ] (key : α → κ) :
    List κ → List α → List α
  | _, [] => []
  | seen, a :: rest =>
    if key a ∈ seen then dedupByKey key seen rest
    else a :: dedupByKey key (key a :: seen) rest

/-! ## services/gemini_service.py -/

/-- Outcome of the external-estimator interaction inside `score_deal`.

`raises` covers any exception out of the rate limiter / API call /
response handling (the final generic handler); `unparsable` is a
`json.JSONDecodeError` from `json.loads`; `parsed c p` means the reply
decoded and `int(...)` / `float(...)` produced calories `c`, protein `p`. -/
inductive EstimatorOutcome where
  | raises
  | unparsable
  | parsed (calories : ℤ) (protein : ℚ)
  deriving DecidableEq, Repr

/-- The dict returned by `GeminiService.score_deal`. -/
structure ScoreDealResult where
  value_score : ℚ
  satiety_score : ℚ
  price_per_calorie : ℚ
  calories : ℤ
  protein_grams : ℚ
  deriving DecidableEq, Repr

/-- Package a `ScoreDict` plus the resolved nutrition into the dict
`score_deal` returns (all three return sites share this shape). -/
def mkScoreDealResult (scores : ScoreDict) (calories : ℤ) (protein : ℚ) :
    ScoreDealResult :=
  { value_score := scores.value_score
    satiety_score := scores.satiety_score
    price_per_calorie := scores.price_per_calorie
    calories := calories
    protein_grams := protein }

/-- The estimator branch of `score_deal` (everything under
`try:` at line 62): defaults of (600, 20) on raise, on JSON decode
failure, or on decoded `calories <= 0`. -/
def score_deal_estimate (expNeg : ℚ → ℚ) (price : ℚ)
    (est : EstimatorOutcome) : ScoreDealResult :=
  match est with
  | .raises =>
      mkScoreDealResult (calculate_final_value_score expNeg (some 600) (some 20) price) 600 20
  | .unparsable =>
      mkScoreDealResult (calculate_final_value_score expNeg (some 600) (some 20) price) 600 20
  | .parsed c p =>
      if c ≤ 0 then
        mkScoreDealResult (calculate_final_value_score expNeg (some 600) (some 20) price) 600 20
      else
        mkScoreDealResult (calculate_final_value_score expNeg (some c) (some p) price) c p

/-- `GeminiService.score_deal(item_name, restaurant_name, price, calories,
protein_grams, ...)`.  The text fields only feed the prompt, so they are
dropped from the model; `est` stands for the estimator interaction, which
is consulted only on the no-provided-nutrition path.

The gate `if calories and calories > 0` is Python truthiness: it is taken
exactly when calories is non-None and strictly positive. -/
def score_deal (expNeg : ℚ → ℚ) (price : ℚ)
    (calories : Option ℤ) (protein_grams : Option ℚ)
    (est : EstimatorOutcome) : ScoreDealResult :=
  match calories with
  | some c =>
    if 0 < c then
      let p := protein_grams.getD 0
      mkScoreDealResult (calculate_final_value_score expNeg (some c) (some p) price) c p
    else score_deal_estimate expNeg price est
  | none => score_deal_estimate expNeg price est

/-! ## services/ubereats_scraper.py -/

/-- A raw `price` field value handed to `UberEatsScraper._parse_price`:
Python `None`, a number (`int`/`float`; `bool` is an `int` subclass), a
string, or any other type. -/
inductive PriceVal where
  | vnone
  | vnum (q : ℚ)
  | vbool (b : Bool)
  | vstr (s : String)
  | vother
  deriving DecidableEq, Repr

/-- `UberEatsScraper._parse_price(value)`: numbers strictly greater than
20 are taken to be cents and divided by 100; strings are scanned for the
first decimal number (after removing commas) with no cents division. -/
def uber_parse_price : PriceVal → Option ℚ
  | .vnone => none
  | .vnum q => if 20 < q then some (pyRound (q / 100) 2) else some (pyRound q 2)
  | .vbool b => some (pyRound (if b then 1 else 0) 2)
  | .vstr s =>
    match scanNumber (some 2) (s.data.filter (fun c => c ≠ ',')) with
    | some a => some (pyRound a 2)
    | none => none
  | .vother => none

/-- `UberEatsScraper._clean_name(text)`: `None` for a non-string or empty
input, otherwise strip trademark glyphs, collapse whitespace runs to a
single space, and strip outer whitespace (the result may be `""`). -/
def clean_name : Option String → Option String
  | none => none
  | some s =>
    if s = "" then none
    else
      let cs := s.data.filter (fun c => !(c = '®' || c = '™'))
      String.mk (stripWs (collapseWs cs))

/-- The record produced per menu item by `UberEatsScraper.fetch_menu`
(dataclass `UberEatsMenuItem`; the wall-clock `price_retrieved_at` field
is outside the model). -/
structure UberEatsMenuItem where
  restaurant : String
  name : String
  price : ℚ
  category : Option String
  store_external_id : Option String
  location : Option String
  deriving DecidableEq, Repr

/-- One candidate dict yielded by `UberEatsScraper._extract_items` while
walking a parsed state payload. -/
structure RawMenuCandidate where
  name : Option String
  price : PriceVal
  category : Option String
  deriving DecidableEq, Repr

/-- The dedup key `(item.name.lower(), item.category.lower() if
item.category else None)` — an empty-string category is falsy in Python
and keys as `None`. -/
def menuKey (i : UberEatsMenuItem) : String × Option String :=
  (pyLower i.name,
   match i.category with
   | some c => if c = "" then none else some (pyLower c)
   | none => none)

/-- The item-building loop of `UberEatsScraper.fetch_menu` (lines
64–91), as a function of the candidate dicts extracted from all
successfully parsed state payloads: candidates without a parsable price
or without a truthy cleaned name are dropped. -/
def fetch_menu_pre (restaurant : String) (store_id loc : Option String)
    (cands : List RawMenuCandidate) : List UberEatsMenuItem :=
  cands.filterMap (fun cand =>
    match uber_parse_price cand.price with
    | none => none
    | some price =>
      match clean_name cand.name with
      | none => none
      | some name =>
        if name = "" then none
        else some { restaurant := restaurant, name := name, price := price,
                    category := clean_name cand.category,
                    store_external_id := store_id, location := loc })

/-- `UberEatsScraper.fetch_menu` (lines 59–100) after the network fetch
and payload extraction: the item-building loop followed by the
name/category deduplication dict, whose values are returned in insertion
order (Python dicts preserve insertion order — first occurrence kept). -/
def fetch_menu_items (restaurant : String) (store_id loc : Option String)
    (cands : List RawMenuCandidate) : List UberEatsMenuItem :=
  dedupByKey menuKey [] (fetch_menu_pre restaurant store_id loc cands)

/-! ## services/ubereats_store_search.py -/

/-- Dataclass `UberEatsStore`. -/
structure UberEatsStore where
  name : String
  store_url : String
  store_id : String
  address : Option String
  distance : Option String
  latitude : Option ℚ
  longitude : Option ℚ
  deriving DecidableEq, Repr

/-- The assembly tail of `UberEatsStoreSearch._parse_search_results`
(lines 267–344): the anchor-href strategy fills `stores`; the
embedded-JSON strategy runs only if it produced nothing (`if not
stores`); then deduplicate by `store_id` keeping first occurrence and
return the first 10.  `anchorStores` / `jsonStores` are the matches the
two strategies would contribute for the given page, in match order. -/
def parse_search_results (anchorStores jsonStores : List UberEatsStore) :
    List UberEatsStore :=
  let stores := if anchorStores.isEmpty then jsonStores else anchorStores
  (dedupByKey (fun s => s.store_id) [] stores).take 10

/-- Python `not x` on an optional float coordinate: true for `None` and
for `0.0`. -/
def pyFalsyCoord : Option ℚ → Bool
  | none => true
  | some q => q == 0

/-- `UberEatsStoreSearch.search_stores(restaurant_name, location, lat=?,
lon=?)` (lines 45–83).  If either caller-supplied coordinate is `None`,
both are replaced by the geocoder's result; then `if not lat or not lon:
return []` — Python truthiness, so `0.0` is treated like a geocoding
failure.  `searchResult` is the outcome of `_search_uber_eats`
(`none` = it raised; the surrounding `except` returns `[]`). -/
def search_stores (latArg lonArg : Option ℚ)
    (geocodeResult : Option ℚ × Option ℚ)
    (searchResult : Option (List UberEatsStore)) : List UberEatsStore :=
  let c := if latArg = none ∨ lonArg = none then geocodeResult else (latArg, lonArg)
  if pyFalsyCoord c.1 || pyFalsyCoord c.2 then []
  else
    match searchResult with
    | none => []
    | some stores => stores

/-! ## services/menu_scraper.py

A parsed JSON value (the result of `json.loads` on an `application/ld+json`
script body).  Python dicts are association lists with first-key-wins
lookup. -/

inductive Json where
  | null
  | jbool (b : Bool)
  | num (q : ℚ)
  | str (s : String)
  | arr (elems : List Json)
  | obj (fields : List (String × Json))

/-- `d.get(k)` on a dict. -/
def jGet (fields : List (String × Json)) (k : String) : Option Json :=
  (fields.find? (fun kv => kv.1 == k)).map (fun kv => kv.2)

/-- Python truthiness of a JSON value. -/
def Json.truthy : Json → Bool
  | .null => false
  | .jbool b => b
  | .num q => !(q == 0)
  | .str s => !(s == "")
  | .arr es => !es.isEmpty
  | .obj fs => !fs.isEmpty

/-- Python `a or b` where `a`, `b` are `dict.get` results. -/
def pyOrJson (a b : Option Json) : Option Json :=
  match a with
  | some v => if v.truthy then some v else b
  | none => b

/-- `d.get(k, {})` followed by use as a dict.  (If the key is present
with a non-dict value CPython would raise `AttributeError` on the
subsequent `.get`; that path is outside this model.) -/
def jGetObjFieldsD (v : Option Json) : List (String × Json) :=
  match v with
  | some (.obj gs) => gs
  | _ => []

theorem sizeOf_jGet {fs : List (String × Json)} {k : String} {v : Json}
    (h : jGet fs k = some v) : sizeOf v < sizeOf fs := by
  unfold jGet at h
  match hfind : fs.find? (fun kv => kv.1 == k) with
  | none => rw [hfind] at h; simp at h
  | some kv =>
    rw [hfind] at h
    have hv : kv.2 = v := by simpa using h
    have hmem : kv ∈ fs := List.mem_of_find?_eq_some hfind
    have h1 : sizeOf kv < sizeOf fs := List.sizeOf_lt_of_mem hmem
    have h2 : sizeOf kv.2 < sizeOf kv := by
      obtain ⟨a, b⟩ := kv
      simp only [Prod.mk.sizeOf_spec]
      omega
    rw [hv] at h2
    omega

/-- `MenuScraper._parse_price(value, currency)`: numbers round to 2
decimals (no cents heuristic here); strings are scanned for the first
decimal number after removing commas; the currency argument is unused. -/
def ms_parse_price : Option Json → Option ℚ
  | some (.num q) => some (pyRound q 2)
  | some (.jbool b) => some (pyRound (if b then 1 else 0) 2)
  | some (.str s) =>
    match scanNumber (some 2) (s.data.filter (fun c => c ≠ ',')) with
    | some a => some (pyRound a 2)
    | none => none
  | _ => none

/-- `MenuScraper._parse_calories(value)`: `int()` truncation for numbers,
else the first 2–4 digit run of the comma-stripped string. -/
def ms_parse_calories : Option Json → Option ℤ
  | some (.num q) => some (pyInt q)
  | some (.jbool b) => some (if b then 1 else 0)
  | some (.str s) =>
    match scanDigits2to4 (s.data.filter (fun c => c ≠ ',')) with
    | some n => some (n : ℤ)
    | none => none
  | _ => none

/-- `MenuScraper._parse_protein(value)`: `float()` for numbers, else the
first decimal number of the string (unbounded fractional digits, no comma
stripping, no rounding). -/
def ms_parse_protein : Option Json → Option ℚ
  | some (.num q) => some q
  | some (.jbool b) => some (if b then 1 else 0)
  | some (.str s) => scanNumber none s.data
  | _ => none

mutual

/-- The offers-directed part of `MenuScraper._extract_price`: the branch
taken for the value of the `offers` key.  A dict is read directly; a list
is tried element-wise (each element wrapped as `{"offers": offer}`, which
for a dict or list element reduces to this same function and for a scalar
yields `None`); anything else yields `None`. -/
def extract_price_from_offers : Json → Option ℚ
  | .obj ofs =>
    ms_parse_price (pyOrJson (jGet ofs "price")
      (jGet (jGetObjFieldsD (jGet ofs "priceSpecification")) "price"))
  | .arr es => extract_price_offers_list es
  | _ => none
termination_by j => sizeOf j

/-- First non-`None` result over a list of offers. -/
def extract_price_offers_list : List Json → Option ℚ
  | [] => none
  | o :: rest =>
    match extract_price_from_offers o with
    | some p => some p
    | none => extract_price_offers_list rest
termination_by es => sizeOf es

end

/-- `MenuScraper._extract_price(entry)` on the fields of `entry`. -/
def ms_extract_price (fs : List (String × Json)) : Option ℚ :=
  let bottom := ms_parse_price (pyOrJson (jGet fs "price")
    (jGet (jGetObjFieldsD (jGet fs "priceSpecification")) "price"))
  match jGet fs "offers" with
  | some (.obj ofs) => extract_price_from_offers (.obj ofs)
  | some (.arr es) =>
    match extract_price_offers_list es with
    | some p => some p
    | none => bottom
  | _ => bottom

/-- `MenuScraper._extract_nutrition(entry)`. -/
def ms_extract_nutrition (fs : List (String × Json)) : Option ℤ × Option ℚ :=
  match jGet fs "nutrition" with
  | some (.obj ns) =>
    (ms_parse_calories (pyOrJson (jGet ns "calories") (jGet ns "calorieContent")),
     ms_parse_protein (pyOrJson (pyOrJson (jGet ns "proteinContent") (jGet ns "protein"))
       (jGet ns "proteinContentValue")))
  | _ => (none, none)

/-- The nested-container keys recursed into by `MenuScraper._flatten_ldjson`. -/
def ldKeys : List String := ["hasMenu", "hasMenuItem", "hasMenuSection", "itemListElement"]

mutual

/-- `MenuScraper._flatten_ldjson(data)`: a dict yields itself, then the
flattening of each of the four container keys present on it, in key
order; a list yields the flattening of its entries; scalars yield
nothing (depth-first generator order). -/
def flatten_ldjson : Json → List Json
  | .obj fs => .obj fs :: flattenLdKeys fs ldKeys
  | .arr es => flattenLdList es
  | _ => []
termination_by j => (sizeOf j, 5)
decreasing_by
  · exact Prod.Lex.right _ (by simp [ldKeys])
  · exact Prod.Lex.right _ (by omega)

/-- Iterate `_flatten_ldjson` over the container keys of a dict. -/
def flattenLdKeys (fs : List (String × Json)) : List String → List Json
  | [] => []
  | k :: ks =>
    (match h : jGet fs k with
     | some v => flatten_ldjson v
     | none => []) ++ flattenLdKeys fs ks
termination_by ks => (sizeOf (Json.obj fs), ks.length)
decreasing_by
  · exact Prod.Lex.left _ _ (by
      have := sizeOf_jGet h
      simp only [Json.obj.sizeOf_spec]
      omega)
  · exact Prod.Lex.right _ (by simp)

/-- Iterate `_flatten_ldjson` over the entries of a list. -/
def flattenLdList : List Json → List Json
  | [] => []
  | e :: es => flatten_ldjson e ++ flattenLdList es
termination_by es => (sizeOf (Json.arr es), 0)
decreasing_by
  · exact Prod.Lex.left _ _ (by
      simp only [Json.arr.sizeOf_spec, List.cons.sizeOf_spec]
      omega)
  · exact Prod.Lex.left _ _ (by
      simp only [Json.arr.sizeOf_spec, List.cons.sizeOf_spec]
      omega)

end

/-- The result dict of `MenuScraper._coerce_menu_item`. -/
structure CoercedItem where
  name : String
  price : Option ℚ
  calories : Option ℤ
  protein : Option ℚ
  category : Option String
  deriving DecidableEq, Repr

/-- `MenuScraper._coerce_menu_item(entry)`: accept only dicts whose
declared `@type`/`type` (string or list of strings, lowercased)
intersects `{menuitem, listitem}`; otherwise recurse into a dict under
the `item` key; then require a truthy string `name` and assemble price /
nutrition / category. -/
def coerce_menu_item : Json → Option CoercedItem
  | .obj fs =>
    let type_value := pyOrJson (jGet fs "@type") (jGet fs "type")
    let types : List String :=
      match type_value with
      | some (.arr es) => es.filterMap (fun e =>
          match e with
          | .str t => some (pyLower t)
          | _ => none)
      | some (.str t) => [pyLower t]
      | _ => []
    if types.contains "menuitem" || types.contains "listitem" then
      match jGet fs "name" with
      | some (.str name) =>
        if name = "" then none
        else
          let nutrition := ms_extract_nutrition fs
          some { name := String.mk (stripWs name.data)
                 price := ms_extract_price fs
                 calories := nutrition.1
                 protein := nutrition.2
                 category :=
                   match jGet fs "category" with
                   | some (.str c) => some (String.mk (stripWs c.data))
                   | _ => none }
      | _ => none
    else
      match h : jGet fs "item" with
      | some (.obj gs) => coerce_menu_item (.obj gs)
      | _ => none
  | _ => none
termination_by j => sizeOf j
decreasing_by
  have := sizeOf_jGet h
  simp only [Json.obj.sizeOf_spec] at *
  omega

/-- Dataclass `ScrapedMenuItem` (menu_scraper.py). -/
structure ScrapedMenuItem where
  restaurant : String
  name : String
  price : Option ℚ
  calories : Option ℤ
  protein_grams : Option ℚ
  category : Option String
  source_url : Option String
  raw : Option Json

/-- One DOM element matched by the CSS selectors of
`MenuScraper._parse_with_heuristics`, reduced to the four reads the code
performs on it: `get("data-name")`, `get("aria-label")`, the text of the
first heading-like child whose class matches `title|name` (strip=True),
and `get_text(" ", strip=True)`. -/
structure SelElement where
  dataName : Option String
  ariaLabel : Option String
  headlineText : Option String
  text : String
  deriving DecidableEq, Repr

/-- Keep an optional string only if Python-truthy (non-`None`, non-empty). -/
def truthyStr : Option String → Option String
  | some s => if s = "" then none else some s
  | none => none

/-- The name-resolution ladder at menu_scraper.py lines 244–250:
`data-name`, else `aria-label`, else the headline text, each accepted
only if truthy; otherwise the element is skipped. -/
def elementName (e : SelElement) : Option String :=
  (truthyStr e.dataName).orElse (fun _ =>
    (truthyStr e.ariaLabel).orElse (fun _ => truthyStr e.headlineText))

/-- Split on whitespace runs dropping empties (Python `str.split()`). -/
def pySplitWs : List Char → List (List Char)
  | [] => []
  | c :: rest =>
    if pySpace c then pySplitWs rest
    else (c :: rest.takeWhile (fun x => !(pySpace x)))
      :: pySplitWs (rest.dropWhile (fun x => !(pySpace x)))
termination_by cs => cs.length
decreasing_by
  · simp
  · simp only [List.length_cons]
    have := length_dropWhile_le (fun x => !(pySpace x)) rest
    omega

/-- `MenuScraper._looks_like_menu_item(text)`: 2–8 whitespace-separated
words and not one of the boilerplate strings. -/
def looks_like_menu_item (s : String) : Bool :=
  if s = "" then false
  else
    let words := pySplitWs s.data
    if words.length < 2 || words.length > 8 then false
    else if pyLower s = "menu" || pyLower s = "learn more" || pyLower s = "order now" then false
    else true

/-- `MenuScraper._parse_price_from_text(text)`:
`re.search(r"\$?\s*(\d+(?:\.\d{1,2})?)", text)` — the optional dollar/space
prefix does not change the captured number, so this is the first decimal
number in the text, rounded to 2 decimals. -/
def parse_price_from_text (s : String) : Option ℚ :=
  if s = "" then none
  else
    match scanNumber (some 2) s.data with
    | some a => some (pyRound a 2)
    | none => none

/-- Consume the optional dollar sign (`\$?`). -/
def dropDollar : List Char → List Char
  | '$' :: t => t
  | a => a

/-- Consume the optional fractional part (`(?:\.\d{1,2})?`): a decimal
point followed by at least one digit consumes the point and up to two
digits; otherwise nothing is consumed. -/
def dropFrac : List Char → List Char
  | '.' :: f =>
    if (f.takeWhile Char.isDigit).isEmpty then '.' :: f
    else f.drop (min 2 (f.takeWhile Char.isDigit).length)
  | a => a

theorem dropDollar_length_le (l : List Char) : (dropDollar l).length ≤ l.length := by
  unfold dropDollar
  split
  · simp
  · exact le_refl _

theorem dropFrac_length_le (l : List Char) : (dropFrac l).length ≤ l.length := by
  unfold dropFrac
  split
  · split
    · exact le_refl _
    · rename_i f _ _
      simp only [List.length_cons, List.length_drop]
      omega
  · exact le_refl _

/-- One leftmost match of `\s*\$?\d+(?:\.\d{1,2})?\s*` anchored at the
head of `cs`: returns the remainder after the match, or `none` when no
match starts here (a match requires a digit after the optional
whitespace run and optional dollar sign). -/
def tryPriceTok (cs : List Char) : Option (List Char) :=
  match dropDollar (cs.dropWhile pySpace) with
  | d :: bs =>
    if d.isDigit then
      some ((dropFrac ((d :: bs).dropWhile Char.isDigit)).dropWhile pySpace)
    else none
  | [] => none

theorem tryPriceTok_length_lt {cs r : List Char} (h : tryPriceTok cs = some r) :
    r.length < cs.length := by
  unfold tryPriceTok at h
  split at h
  · rename_i d bs hb
    split at h
    · rename_i hd
      have h1 : (cs.dropWhile pySpace).length ≤ cs.length :=
        length_dropWhile_le pySpace cs
      have h2 : (d :: bs).length ≤ (cs.dropWhile pySpace).length := by
        rw [← hb]
        exact dropDollar_length_le _
      have h3 : ((d :: bs).dropWhile Char.isDigit).length ≤ bs.length := by
        rw [List.dropWhile_cons, if_pos hd]
        exact length_dropWhile_le Char.isDigit bs
      have h4 := dropFrac_length_le ((d :: bs).dropWhile Char.isDigit)
      have h5 := length_dropWhile_le pySpace
        (dropFrac ((d :: bs).dropWhile Char.isDigit))
      have hr : r = (dropFrac ((d :: bs).dropWhile Char.isDigit)).dropWhile pySpace :=
        (Option.some_inj.mp h).symm
      rw [hr]
      simp only [List.length_cons] at h2
      omega
    · exact absurd h (by simp)
  · exact absurd h (by simp)

/-- `re.sub(r"\s*\$?\d+(?:\.\d{1,2})?\s*", "", line)`: delete every
(leftmost, non-overlapping) price-like token. -/
def stripPriceTokens : List Char → List Char
  | [] => []
  | c :: rest =>
    match h : tryPriceTok (c :: rest) with
    | some r => stripPriceTokens r
    | none => c :: stripPriceTokens rest
termination_by cs => cs.length
decreasing_by
  · exact tryPriceTok_length_lt h
  · simp

/-- `re.sub(r"\s{2,}", " ", s)`: replace each whitespace run of length at
least two by a single space; single whitespace characters are kept as-is. -/
def collapseMulti : List Char → List Char
  | [] => []
  | [c] => [c]
  | c :: d :: rest =>
    if pySpace c && pySpace d then ' ' :: collapseMulti ((d :: rest).dropWhile pySpace)
    else c :: collapseMulti (d :: rest)
termination_by cs => cs.length
decreasing_by
  · simp only [List.length_cons]
    have := length_dropWhile_le pySpace (d :: rest)
    simp only [List.length_cons] at this
    omega
  · simp

/-- Python `str.strip(chars)`. -/
def stripChars (l : List Char) (cs : List Char) : List Char :=
  ((l.dropWhile (fun c => cs.contains c)).reverse.dropWhile (fun c => cs.contains c)).reverse

/-- Python `str.splitlines()` restricted to `\n`, `\r` and `\r\n`
terminators (a trailing terminator does not produce an empty line). -/
def pySplitlines : List Char → List (List Char)
  | [] => []
  | c :: rest =>
    let line := (c :: rest).takeWhile (fun x => !(x == '\n' || x == '\r'))
    match hdrop : (c :: rest).dropWhile (fun x => !(x == '\n' || x == '\r')) with
    | [] => [line]
    | '\r' :: '\n' :: r => line :: pySplitlines r
    | _ :: r => line :: pySplitlines r
termination_by cs => cs.length
decreasing_by
  all_goals
    have h1 := length_dropWhile_le
      (fun x => !(x == '\n' || x == '\r')) (c :: rest)
    rw [hdrop] at h1
    simp only [List.length_cons] at *
    omega

/-- `MenuScraper._guess_items_from_text(text)` (lines 329–342): for each
stripped line that contains a dollar sign and is at most 120 characters,
extract the first price, delete all price-like tokens, collapse
multi-whitespace, strip `" •:-"`, and keep the cleaned name if it passes
the menu-item filter. -/
def guess_items_from_text (text : String) : List (String × Option ℚ) :=
  (pySplitlines text.data).filterMap (fun rawLine =>
    let line := stripWs rawLine
    if line.isEmpty || !(line.contains '$') then none
    else if 120 < line.length then none
    else
      let price := parse_price_from_text (String.mk line)
      let cleaned := collapseMulti (stripPriceTokens line)
      let cleaned := String.mk (stripChars cleaned [' ', '•', ':', '-'])
      if looks_like_menu_item cleaned then some (cleaned, price) else none)

/-- The CSS-selector stage of `MenuScraper._parse_with_heuristics`
(lines 241–265), as a function of the elements the six selectors match,
concatenated in selector order.  `seen` mirrors `seen_names`: a name is
recorded exactly when the corresponding item is appended. -/
def heuristic_selector_pass (restaurant url : String) :
    List String → List SelElement → List ScrapedMenuItem
  | _, [] => []
  | seen, e :: rest =>
    match elementName e with
    | none => heuristic_selector_pass restaurant url seen rest
    | some raw =>
      let name := String.mk (stripWs raw.data)
      if seen.contains name || !(looks_like_menu_item name) then
        heuristic_selector_pass restaurant url seen rest
      else
        { restaurant := restaurant, name := name,
          price := parse_price_from_text e.text, calories := none,
          protein_grams := none, category := none, source_url := some url,
          raw := none }
          :: heuristic_selector_pass restaurant url (name :: seen) rest

/-- `MenuScraper._parse_with_heuristics(restaurant, url, soup)`:
the selector stage, and only if it produced nothing, the full-text scan
(filtered against `seen_names`, which is empty exactly when the selector
stage produced nothing). -/
def parse_with_heuristics (restaurant url : String)
    (elements : List SelElement) (pageText : String) : List ScrapedMenuItem :=
  let items := heuristic_selector_pass restaurant url [] elements
  let seen := items.map (fun i => i.name)
  if items.isEmpty then
    (guess_items_from_text pageText).filterMap (fun np =>
      if seen.contains np.1 then none
      else some { restaurant := restaurant, name := np.1, price := np.2,
                  calories := none, protein_grams := none, category := none,
                  source_url := some url, raw := none })
  else items

/-- `MenuScraper._parse_structured_data(restaurant, url, soup)` as a
function of the parse outcomes of the `application/ld+json` script
bodies (`none` = empty script or `json.JSONDecodeError`, skipped). -/
def parse_structured_data (restaurant url : String)
    (blocks : List (Option Json)) : List ScrapedMenuItem :=
  blocks.flatMap (fun b =>
    match b with
    | none => []
    | some data =>
      (flatten_ldjson data).filterMap (fun entry =>
        (coerce_menu_item entry).map (fun mi =>
          { restaurant := restaurant, name := mi.name, price := mi.price,
            calories := mi.calories, protein_grams := mi.protein,
            category := mi.category, source_url := some url,
            raw := match entry with | .obj _ => some entry | _ => none })))

/-- An apostrophe character (U+0027), used in restaurant display names. -/
def apos : Char := '\x27'

/-- `MenuScraper.TARGETS`: slug → (restaurant display name, url). -/
def TARGETS : List (String × String × String) :=
  [("mcdonalds", "McDonald" ++ String.singleton apos ++ "s",
    "https://www.mcdonalds.com/us/en-us/full-menu.html"),
   ("taco-bell", "Taco Bell", "https://www.tacobell.com/food"),
   ("wendys", "Wendy" ++ String.singleton apos ++ "s",
    "https://www.wendys.com/menu"),
   ("burger-king", "Burger King", "https://www.bk.com/menu"),
   ("chick-fil-a", "Chick-fil-A", "https://www.chick-fil-a.com/menu"),
   ("subway", "Subway", "https://www.subway.com/en-us/menunutrition/menu")]

/-- `TARGETS.get(slug)`. -/
def lookupTarget (slug : String) : Option (String × String) :=
  (TARGETS.find? (fun t => t.1 == slug)).map (fun t => t.2)

/-- The fetched-and-parsed page handed to the parsing stages: the
`application/ld+json` script parse outcomes, the elements matched by the
heuristic CSS selectors, and `soup.get_text("\n")`. -/
structure SoupDoc where
  ldjsonBlocks : List (Option Json)
  selectorHits : List SelElement
  pageText : String

/-- `MenuScraper.scrape_restaurant(slug)` (lines 73–91): `none` models
the `ValueError` for an unknown slug; otherwise structured data first,
heuristics only if it yielded nothing — a strict fallback, never a merge. -/
def scrape_restaurant (slug : String) (doc : SoupDoc) :
    Option (List ScrapedMenuItem) :=
  match lookupTarget slug with
  | none => none
  | some (restaurant, url) =>
    let items := parse_structured_data restaurant url doc.ldjsonBlocks
    let items :=
      if items.isEmpty then
        parse_with_heuristics restaurant url doc.selectorHits doc.pageText
      else items
    some items

/-! ## Supporting lemmas about rounding and clamping -/

theorem pyRound_nonneg {x : ℚ} (n : ℕ) (h : 0 ≤ x) : 0 ≤ pyRound x n := by
  unfold pyRound
  apply div_nonneg
  · have h1 : (0 : ℤ) ≤ round (x * 10 ^ n) := by
      rw [round_eq]
      apply Int.floor_nonneg.mpr
      have : (0 : ℚ) ≤ x * 10 ^ n := by positivity
      linarith
    exact_mod_cast h1
  · positivity

theorem pyRound_le {x : ℚ} {B : ℤ} (n : ℕ) (h : x ≤ B) : pyRound x n ≤ B := by
  unfold pyRound
  rw [div_le_iff₀ (by positivity : (0 : ℚ) < 10 ^ n)]
  have h1 : round (x * 10 ^ n) ≤ B * 10 ^ n := by
    rw [round_eq]
    have h2 : ⌊x * 10 ^ n + 1 / 2⌋ < B * 10 ^ n + 1 := by
      apply Int.floor_lt.mpr
      have h3 : x * 10 ^ n ≤ (B : ℚ) * 10 ^ n := by
        apply mul_le_mul_of_nonneg_right h (by positivity)
      push_cast
      linarith
    omega
  calc ((round (x * 10 ^ n) : ℤ) : ℚ) ≤ ((B * 10 ^ n : ℤ) : ℚ) := by exact_mod_cast h1
    _ = (B : ℚ) * 10 ^ n := by push_cast; ring

theorem pyRound_idem (x : ℚ) (n : ℕ) : pyRound (pyRound x n) n = pyRound x n := by
  unfold pyRound
  rw [div_mul_cancel₀ _ (by positivity : (10 : ℚ) ^ n ≠ 0)]
  rw [round_intCast]

theorem pyRound_zero (n : ℕ) : pyRound 0 n = 0 := by
  unfold pyRound
  simp

theorem clamp_nonneg (x : ℚ) : 0 ≤ clamp x := le_max_left 0 _

theorem clamp_le_hundred (x : ℚ) : clamp x ≤ 100 := by
  unfold clamp
  apply max_le
  · norm_num
  · exact min_le_left 100 x

/-- The satiety score is in `[0, 100]` on every input (it either returns
0 or a clamped, rounded value). -/
theorem satiety_bounds (expNeg : ℚ → ℚ) (cal : Option ℤ) (pg : Option ℚ) :
    0 ≤ calculate_satiety_score expNeg cal pg ∧
      calculate_satiety_score expNeg cal pg ≤ 100 := by
  rcases cal with _ | c
  · simp [calculate_satiety_score]
  · simp only [calculate_satiety_score]
    by_cases hc : c ≤ 0
    · rw [if_pos hc]; norm_num
    · rw [if_neg hc]
      constructor
      · exact pyRound_nonneg 1 (clamp_nonneg _)
      · exact_mod_cast pyRound_le (B := 100) 1 (by exact_mod_cast clamp_le_hundred _)

/-- The price-efficiency score is in `[0, 100]` on every input. -/
theorem price_eff_bounds (price : Option ℚ) (cal : Option ℤ) :
    0 ≤ calculate_price_efficiency_score price cal ∧
      calculate_price_efficiency_score price cal ≤ 100 := by
  rcases price with _ | p <;> rcases cal with _ | c
  · simp [calculate_price_efficiency_score]
  · simp [calculate_price_efficiency_score]
  · simp [calculate_price_efficiency_score]
  · simp only [calculate_price_efficiency_score]
    by_cases h1 : p ≤ 0 ∨ c ≤ 0
    · rw [if_pos h1]; norm_num
    · rw [if_neg h1]
      by_cases h2 : p / (c : ℚ) ≤ 0
      · rw [if_pos h2]; norm_num
      · rw [if_neg h2]
        constructor
        · exact pyRound_nonneg 1 (clamp_nonneg _)
        · exact_mod_cast pyRound_le (B := 100) 1 (by exact_mod_cast clamp_le_hundred _)

/-- Rounding the satiety score to one decimal is a no-op: it is already
either 0 or rounded to one decimal. -/
theorem satiety_round_idem (expNeg : ℚ → ℚ) (cal : Option ℤ) (pg : Option ℚ) :
    pyRound (calculate_satiety_score expNeg cal pg) 1 =
      calculate_satiety_score expNeg cal pg := by
  rcases cal with _ | c
  · simp only [calculate_satiety_score]; exact pyRound_zero 1
  · simp only [calculate_satiety_score]
    by_cases hc : c ≤ 0
    · rw [if_pos hc]; exact pyRound_zero 1
    · rw [if_neg hc]; exact pyRound_idem _ 1

/-- Rounding the price-efficiency score to one decimal is a no-op. -/
theorem price_eff_round_idem (price : Option ℚ) (cal : Option ℤ) :
    pyRound (calculate_price_efficiency_score price cal) 1 =
      calculate_price_efficiency_score price cal := by
  rcases price with _ | p <;> rcases cal with _ | c
  · exact pyRound_zero 1
  · exact pyRound_zero 1
  · exact pyRound_zero 1
  · simp only [calculate_price_efficiency_score]
    by_cases h1 : p ≤ 0 ∨ c ≤ 0
    · rw [if_pos h1]; exact pyRound_zero 1
    · rw [if_neg h1]
      by_cases h2 : p / (c : ℚ) ≤ 0
      · rw [if_pos h2]; exact pyRound_zero 1
      · rw [if_neg h2]; exact pyRound_idem _ 1

/-! ## Claim C1 -/

/-- C1: for every calories > 0, protein_grams ≥ 0, price > 0, the result
of `calculate_final_value_score` has `satiety_score`,
`price_efficiency_score` and `value_score` all in [0, 100], and
`value_score` equals `round(satiety_score*0.4 + price_efficiency_score*0.6, 1)`
exactly. -/
theorem C1_final_score_bounds_and_combination (expNeg : ℚ → ℚ)
    (calories : ℤ) (protein_grams price : ℚ)
    (hc : 0 < calories) (hp : 0 ≤ protein_grams) (hpr : 0 < price) :
    (0 ≤ (calculate_final_value_score expNeg (some calories) (some protein_grams) price).satiety_score ∧
      (calculate_final_value_score expNeg (some calories) (some protein_grams) price).satiety_score ≤ 100) ∧
    (0 ≤ (calculate_final_value_score expNeg (some calories) (some protein_grams) price).price_efficiency_score ∧
      (calculate_final_value_score expNeg (some calories) (some protein_grams) price).price_efficiency_score ≤ 100) ∧
    (0 ≤ (calculate_final_value_score expNeg (some calories) (some protein_grams) price).value_score ∧
      (calculate_final_value_score expNeg (some calories) (some protein_grams) price).value_score ≤ 100) ∧
    (calculate_final_value_score expNeg (some calories) (some protein_grams) price).value_score =
      pyRound
        ((calculate_final_value_score expNeg (some calories) (some protein_grams) price).satiety_score * (4 / 10) +
          (calculate_final_value_score expNeg (some calories) (some protein_grams) price).price_efficiency_score * (6 / 10)) 1 := by
  set r := calculate_final_value_score expNeg (some calories) (some protein_grams) price with hrdef
  have hsat := satiety_bounds expNeg (some calories) (some protein_grams)
  have hpe := price_eff_bounds (some price) (some calories)
  have hsi := satiety_round_idem expNeg (some calories) (some protein_grams)
  have hpi := price_eff_round_idem (some price) (some calories)
  have hrs : r.satiety_score = calculate_satiety_score expNeg (some calories) (some protein_grams) := hsi
  have hrp : r.price_efficiency_score =
      calculate_price_efficiency_score (some price) (some calories) := hpi
  refine ⟨?_, ?_, ?_, ?_⟩
  · rw [hrs]; exact hsat
  · rw [hrp]; exact hpe
  · constructor
    · apply pyRound_nonneg
      have := hsat.1; have := hpe.1
      nlinarith
    · apply le_trans (pyRound_le (B := 100) 1 ?_) (by norm_num)
      have := hsat.2; have := hpe.2
      push_cast
      nlinarith
  · show pyRound _ 1 = _
    rw [hrs, hrp]

/-- Witness for C1 at calories = 800, protein = 30, price = 9. -/
theorem C1_final_score_bounds_and_combination_witness :
    (0 ≤ (calculate_final_value_score (fun _ => 1 / 2) (some 800) (some 30) 9).satiety_score ∧
      (calculate_final_value_score (fun _ => 1 / 2) (some 800) (some 30) 9).satiety_score ≤ 100) ∧
    (0 ≤ (calculate_final_value_score (fun _ => 1 / 2) (some 800) (some 30) 9).price_efficiency_score ∧
      (calculate_final_value_score (fun _ => 1 / 2) (some 800) (some 30) 9).price_efficiency_score ≤ 100) ∧
    (0 ≤ (calculate_final_value_score (fun _ => 1 / 2) (some 800) (some 30) 9).value_score ∧
      (calculate_final_value_score (fun _ => 1 / 2) (some 800) (some 30) 9).value_score ≤ 100) ∧
    (calculate_final_value_score (fun _ => 1 / 2) (some 800) (some 30) 9).value_score =
      pyRound
        ((calculate_final_value_score (fun _ => 1 / 2) (some 800) (some 30) 9).satiety_score * (4 / 10) +
          (calculate_final_value_score (fun _ => 1 / 2) (some 800) (some 30) 9).price_efficiency_score * (6 / 10)) 1 :=
  C1_final_score_bounds_and_combination (fun _ => 1 / 2) 800 30 9
    (by norm_num) (by norm_num) (by norm_num)

/-! ## Claim C8 -/

/-- C8: degenerate inputs yield 0 for the corresponding component and
never raise: the satiety score is 0.0 whenever calories is None or ≤ 0
regardless of protein; a negative protein contributes a zero protein
component (the score equals the one at protein 0); the price-efficiency
score is 0.0 whenever price is None or ≤ 0 or calories is None or ≤ 0.
(Totality of the Lean functions models raise-freedom.) -/
theorem C8_degenerate_inputs_zero (expNeg : ℚ → ℚ) :
    (∀ pg, calculate_satiety_score expNeg none pg = 0) ∧
    (∀ c pg, c ≤ 0 → calculate_satiety_score expNeg (some c) pg = 0) ∧
    (∀ c p, p < 0 →
      calculate_satiety_score expNeg (some c) (some p) =
        calculate_satiety_score expNeg (some c) (some 0)) ∧
    (∀ c, calculate_price_efficiency_score none c = 0) ∧
    (∀ p, calculate_price_efficiency_score p none = 0) ∧
    (∀ p c, p ≤ 0 → calculate_price_efficiency_score (some p) (some c) = 0) ∧
    (∀ p c, c ≤ 0 → calculate_price_efficiency_score (some p) (some c) = 0) := by
  refine ⟨?_, ?_, ?_, ?_, ?_, ?_, ?_⟩
  · intro pg; rfl
  · intro c pg hc
    simp only [calculate_satiety_score]
    rw [if_pos hc]
  · intro c p hp
    simp only [calculate_satiety_score]
    by_cases hc : c ≤ 0
    · rw [if_pos hc, if_pos hc]
    · rw [if_neg hc, if_neg hc]
      simp only [if_pos hp]
      norm_num
  · intro c; cases c <;> rfl
  · intro p; cases p <;> rfl
  · intro p c hp
    simp only [calculate_price_efficiency_score]
    rw [if_pos (Or.inl hp)]
  · intro p c hc
    simp only [calculate_price_efficiency_score]
    rw [if_pos (Or.inr hc)]

/-- Witness for C8 at concrete degenerate inputs. -/
theorem C8_degenerate_inputs_zero_witness :
    calculate_satiety_score (fun _ => 1 / 2) none (some 50) = 0 ∧
    calculate_satiety_score (fun _ => 1 / 2) (some 0) (some 50) = 0 ∧
    calculate_satiety_score (fun _ => 1 / 2) (some 100) (some (-3)) =
      calculate_satiety_score (fun _ => 1 / 2) (some 100) (some 0) ∧
    calculate_price_efficiency_score (some (-2)) (some 100) = 0 ∧
    calculate_price_efficiency_score (some 5) (some 0) = 0 := by
  obtain ⟨h1, h2, h3, _, _, h6, h7⟩ := C8_degenerate_inputs_zero (fun _ => 1 / 2)
  exact ⟨h1 (some 50), h2 0 (some 50) (by norm_num), h3 100 (-3) (by norm_num),
    h6 (-2) 100 (by norm_num), h7 5 0 (by norm_num)⟩

/-! ## Claim C9 (corrected) -/

/-- C9 counterexample: the claim asserts `price_per_calorie ≥ 0` for
every input, but at calories = 1, protein = 0, price = −1 the code
computes `round(-1/1, 4) = -1 < 0`. -/
theorem C9_price_per_calorie_counterexample :
    (calculate_final_value_score (fun _ => 1 / 2) (some 1) (some 0) (-1)).price_per_calorie
      < 0 := by
  have h : (calculate_final_value_score (fun _ => 1 / 2) (some 1) (some 0) (-1)).price_per_calorie
      = pyRound (-1 : ℚ) 4 := by
    norm_num [calculate_final_value_score]
  rw [h]
  unfold pyRound
  rw [show ((-1 : ℚ) * 10 ^ 4) = ((-10000 : ℤ) : ℚ) by norm_num]
  rw [round_intCast]
  norm_num

/-- C9 as amended: `price_per_calorie` equals `round(price/calories, 4)`
when calories > 0 and 0.0 otherwise (calories None or ≤ 0), and it is
nonnegative whenever the price is nonnegative (the claim's unconditional
nonnegativity fails for negative prices). -/
theorem C9_price_per_calorie (expNeg : ℚ → ℚ) (calories : Option ℤ)
    (pg : Option ℚ) (price : ℚ) :
    (0 ≤ price →
      0 ≤ (calculate_final_value_score expNeg calories pg price).price_per_calorie) ∧
    (∀ c, calories = some c → 0 < c →
      (calculate_final_value_score expNeg calories pg price).price_per_calorie =
        pyRound (price / (c : ℚ)) 4) ∧
    ((∀ c, calories = some c → c ≤ 0) →
      (calculate_final_value_score expNeg calories pg price).price_per_calorie = 0) := by
  refine ⟨?_, ?_, ?_⟩
  · intro hpr
    rcases calories with _ | c
    · simp [calculate_final_value_score]
    · simp only [calculate_final_value_score]
      by_cases hc : 0 < c
      · simp only [if_pos hc]
        apply pyRound_nonneg
        apply div_nonneg hpr
        exact_mod_cast le_of_lt hc
      · simp only [if_neg hc]
        norm_num
  · intro c hcal hc
    subst hcal
    simp only [calculate_final_value_score]
    simp only [if_pos hc]
  · intro hnp
    rcases calories with _ | c
    · simp [calculate_final_value_score]
    · have hc : c ≤ 0 := hnp c rfl
      simp only [calculate_final_value_score]
      simp only [if_neg (by omega : ¬ 0 < c)]

/-- Evaluating `pyRound` when the scaled value is an integer. -/
theorem pyRound_eq_of_int {x : ℚ} {n : ℕ} {m : ℤ} (h : x * 10 ^ n = (m : ℚ)) :
    pyRound x n = (m : ℚ) / 10 ^ n := by
  unfold pyRound
  rw [h, round_intCast]

/-! ## Claim C3 -/

/-- C3: when provided calories are absent or not > 0, and the estimator
raises, or its reply fails to parse as JSON, or the parsed calories are
≤ 0, `score_deal` returns calories = 600, protein_grams = 20, and score
fields equal to `calculate_final_value_score(600, 20, price)`; totality
of the model captures that the failure never propagates to the caller. -/
theorem C3_estimator_failure_defaults (expNeg : ℚ → ℚ) (price : ℚ)
    (calories : Option ℤ) (protein_grams : Option ℚ) (est : EstimatorOutcome)
    (hcal : ∀ c, calories = some c → c ≤ 0)
    (hest : est = .raises ∨ est = .unparsable ∨ ∃ c p, est = .parsed c p ∧ c ≤ 0) :
    score_deal expNeg price calories protein_grams est =
      mkScoreDealResult (calculate_final_value_score expNeg (some 600) (some 20) price)
        600 20 := by
  have hestimate : score_deal_estimate expNeg price est =
      mkScoreDealResult (calculate_final_value_score expNeg (some 600) (some 20) price)
        600 20 := by
    rcases hest with h | h | ⟨c, p, h, hc⟩
    · rw [h]; rfl
    · rw [h]; rfl
    · rw [h]
      simp only [score_deal_estimate, if_pos hc]
  rcases calories with _ | c
  · rw [show score_deal expNeg price none protein_grams est =
      score_deal_estimate expNeg price est from rfl]
    exact hestimate
  · have hc : c ≤ 0 := hcal c rfl
    simp only [score_deal, if_neg (by omega : ¬ 0 < c)]
    exact hestimate

/-- Witness for C3: no provided nutrition, estimator raises, price 9. -/
theorem C3_estimator_failure_defaults_witness :
    score_deal (fun _ => 1 / 2) 9 none none .raises =
      mkScoreDealResult (calculate_final_value_score (fun _ => 1 / 2) (some 600) (some 20) 9)
        600 20 :=
  C3_estimator_failure_defaults (fun _ => 1 / 2) 9 none none .raises
    (fun c h => nomatch h) (Or.inl rfl)

/-! ## Claim C7 -/

/-- C7: with provided calories > 0, `score_deal` never consults the
estimator: the result is identical across arbitrary estimator outcomes
and is computed from the provided calories and the provided protein
(defaulting to 0 when absent). -/
theorem C7_provided_nutrition_independent_of_estimator (expNeg : ℚ → ℚ)
    (price : ℚ) (protein_grams : Option ℚ) (c : ℤ) (hc : 0 < c)
    (est₁ est₂ : EstimatorOutcome) :
    score_deal expNeg price (some c) protein_grams est₁ =
      score_deal expNeg price (some c) protein_grams est₂ ∧
    score_deal expNeg price (some c) protein_grams est₁ =
      mkScoreDealResult
        (calculate_final_value_score expNeg (some c) (some (protein_grams.getD 0)) price)
        c (protein_grams.getD 0) := by
  simp only [score_deal, if_pos hc]
  exact ⟨by trivial, by trivial⟩

/-- Witness for C7: calories 500 provided, estimator raising in one run
and returning (1000, 50) in the other. -/
theorem C7_provided_nutrition_independent_of_estimator_witness :
    score_deal (fun _ => 1 / 2) 9 (some 500) none .raises =
      score_deal (fun _ => 1 / 2) 9 (some 500) none (.parsed 1000 50) ∧
    score_deal (fun _ => 1 / 2) 9 (some 500) none .raises =
      mkScoreDealResult
        (calculate_final_value_score (fun _ => 1 / 2) (some 500) (some ((none : Option ℚ).getD 0)) 9)
        500 ((none : Option ℚ).getD 0) :=
  C7_provided_nutrition_independent_of_estimator (fun _ => 1 / 2) 9 none 500
    (by norm_num) .raises (.parsed 1000 50)

/-- Witness for the amended C9 at price = 9, calories = 800. -/
theorem C9_price_per_calorie_witness :
    (0 ≤ (9 : ℚ) →
      0 ≤ (calculate_final_value_score (fun _ => 1 / 2) (some 800) (some 30) 9).price_per_calorie) ∧
    ((calculate_final_value_score (fun _ => 1 / 2) (some 800) (some 30) 9).price_per_calorie =
      pyRound ((9 : ℚ) / ((800 : ℤ) : ℚ)) 4) := by
  obtain ⟨h1, h2, _⟩ := C9_price_per_calorie (fun _ => 1 / 2) (some 800) (some 30) 9
  exact ⟨h1, h2 800 rfl (by norm_num)⟩

/-! ## Supporting lemmas about first-occurrence deduplication -/

theorem dedupByKey_sublist {α κ : Type} [DecidableEq κ] (key : α → κ)
    (seen : List κ) (l : List α) : (dedupByKey key seen l).Sublist l := by
  induction l generalizing seen with
  | nil => simp [dedupByKey]
  | cons a rest ih =>
    simp only [dedupByKey]
    split
    · exact (ih seen).trans (List.sublist_cons_self a rest)
    · exact List.Sublist.cons₂ a (ih _)

theorem dedupByKey_not_mem_seen {α κ : Type} [DecidableEq κ] (key : α → κ)
    (seen : List κ) (l : List α) :
    ∀ x ∈ dedupByKey key seen l, key x ∉ seen := by
  induction l generalizing seen with
  | nil => simp [dedupByKey]
  | cons a rest ih =>
    simp only [dedupByKey]
    split
    · exact ih seen
    · rename_i hns
      intro x hx
      rcases List.mem_cons.mp hx with h | h
      · subst h; exact hns
      · intro hmem
        exact ih (key a :: seen) x h (List.mem_cons_of_mem _ hmem)

theorem dedupByKey_keys_nodup {α κ : Type} [DecidableEq κ] (key : α → κ)
    (seen : List κ) (l : List α) :
    ((dedupByKey key seen l).map key).Nodup := by
  induction l generalizing seen with
  | nil => simp [dedupByKey]
  | cons a rest ih =>
    simp only [dedupByKey]
    split
    · exact ih seen
    · simp only [List.map_cons, List.nodup_cons]
      constructor
      · intro hmem
        obtain ⟨x, hx, hkx⟩ := List.mem_map.mp hmem
        exact dedupByKey_not_mem_seen key _ rest x hx (hkx ▸ List.mem_cons_self _ _)
      · exact ih _

theorem find?_cons_eq_ite {α : Type} (p : α → Bool) (a : α) (l : List α) :
    List.find? p (a :: l) = if p a then some a else List.find? p l := by
  cases h : p a <;> simp [List.find?, h]

theorem dedupByKey_find? {α κ : Type} [DecidableEq κ] (key : α → κ)
    (seen : List κ) (l : List α) (k : κ) (hk : k ∉ seen) :
    (dedupByKey key seen l).find? (fun a => decide (key a = k)) =
      l.find? (fun a => decide (key a = k)) := by
  induction l generalizing seen with
  | nil => simp [dedupByKey]
  | cons a rest ih =>
    simp only [dedupByKey]
    split
    · rename_i hmem
      have hne : ¬ (decide (key a = k) = true) := by
        simp only [decide_eq_true_eq]
        intro h
        exact hk (h ▸ hmem)
      rw [find?_cons_eq_ite (fun x => decide (key x = k)) a rest, if_neg hne]
      exact ih seen hk
    · rename_i hmem
      rw [find?_cons_eq_ite (fun x => decide (key x = k)) a rest,
        find?_cons_eq_ite (fun x => decide (key x = k)) a
          (dedupByKey key (key a :: seen) rest)]
      by_cases hak : key a = k
      · rw [if_pos (decide_eq_true hak), if_pos (decide_eq_true hak)]
      · have hp : ¬ (decide (key a = k) = true) := by simpa using hak
        rw [if_neg hp, if_neg hp]
        apply ih
        intro hmm
        rcases List.mem_cons.mp hmm with h | h
        · exact hak h.symm
        · exact hk h

theorem dedupByKey_eq_self {α κ : Type} [DecidableEq κ] (key : α → κ)
    (seen : List κ) (l : List α) (hnd : (l.map key).Nodup)
    (hdisj : ∀ x ∈ l, key x ∉ seen) : dedupByKey key seen l = l := by
  induction l generalizing seen with
  | nil => simp [dedupByKey]
  | cons a rest ih =>
    simp only [dedupByKey]
    rw [if_neg (hdisj a (List.mem_cons_self a rest))]
    congr 1
    rw [List.map_cons, List.nodup_cons] at hnd
    apply ih _ hnd.2
    intro x hx hmem
    rcases List.mem_cons.mp hmem with h | h
    · exact hnd.1 (h ▸ List.mem_map_of_mem key hx)
    · exact hdisj x (List.mem_cons_of_mem a hx) h

/-! ## Claim C5 -/

/-- C5: `_parse_search_results` returns at most 10 entries with pairwise
distinct store_ids, in first-seen discovery order (a sublist of
anchor-strategy matches followed by embedded-JSON matches — the JSON
strategy only contributes when the anchor strategy matched nothing), and
15 distinct matched store_ids yield exactly 10 results. -/
theorem C5_store_results_dedup_cap_order (anchorStores jsonStores : List UberEatsStore) :
    (parse_search_results anchorStores jsonStores).length ≤ 10 ∧
    ((parse_search_results anchorStores jsonStores).map (fun s => s.store_id)).Nodup ∧
    (parse_search_results anchorStores jsonStores).Sublist (anchorStores ++ jsonStores) ∧
    ((if anchorStores.isEmpty then jsonStores else anchorStores).length = 15 →
      ((if anchorStores.isEmpty then jsonStores else anchorStores).map
        (fun s => s.store_id)).Nodup →
      (parse_search_results anchorStores jsonStores).length = 10) := by
  have hpr : parse_search_results anchorStores jsonStores =
      (dedupByKey (fun s : UberEatsStore => s.store_id) []
        (if anchorStores.isEmpty then jsonStores else anchorStores)).take 10 := rfl
  refine ⟨?_, ?_, ?_, ?_⟩
  · rw [hpr]; exact List.length_take_le 10 _
  · rw [hpr]
    exact (dedupByKey_keys_nodup _ [] _).sublist
      (List.Sublist.map _ (List.take_sublist 10 _))
  · rw [hpr]
    refine ((List.take_sublist 10 _).trans (dedupByKey_sublist _ [] _)).trans ?_
    by_cases h : anchorStores.isEmpty
    · rw [if_pos h]; exact List.sublist_append_right _ _
    · rw [if_neg h]; exact List.sublist_append_left _ _
  · intro hlen hnd
    rw [hpr, dedupByKey_eq_self _ [] _ hnd (fun x _ h => by simp at h),
      List.length_take, hlen]
    rfl

/-- Witness stores for C5: 15 entries with distinct store_ids. -/
def c5Stores : List UberEatsStore :=
  ["a", "b", "c", "d", "e", "f", "g", "h", "i", "j", "k", "l", "m", "n", "o"].map
    (fun i => { name := i, store_url := i, store_id := i, address := none,
                distance := none, latitude := none, longitude := none })

/-- Witness for C5: 15 distinct anchor-strategy matches give exactly 10
results, deduplicated and in order. -/
theorem C5_store_results_dedup_cap_order_witness :
    (parse_search_results c5Stores []).length ≤ 10 ∧
    ((parse_search_results c5Stores []).map (fun s => s.store_id)).Nodup ∧
    (parse_search_results c5Stores []).Sublist (c5Stores ++ []) ∧
    (parse_search_results c5Stores []).length = 10 := by
  obtain ⟨h1, h2, h3, h4⟩ := C5_store_results_dedup_cap_order c5Stores []
  exact ⟨h1, h2, h3, h4 (by decide) (by decide)⟩

/-! ## Claim C6 -/

/-- C6: every item returned by `fetch_menu` carries a price parsed from
its candidate (candidates with an unresolvable price or an absent/empty
cleaned name are dropped), and the result holds at most one item per
(lowercased name, lowercased category) pair, keeping the first
occurrence (it is a sublist of the filtered items whose first entry per
key agrees with theirs). -/
theorem C6_fetch_menu_price_present_and_dedup (restaurant : String)
    (store_id loc : Option String) (cands : List RawMenuCandidate) :
    (∀ i ∈ fetch_menu_items restaurant store_id loc cands,
      ∃ cand ∈ cands, uber_parse_price cand.price = some i.price ∧
        clean_name cand.name = some i.name ∧ i.name ≠ "") ∧
    ((fetch_menu_items restaurant store_id loc cands).map menuKey).Nodup ∧
    (fetch_menu_items restaurant store_id loc cands).Sublist
      (fetch_menu_pre restaurant store_id loc cands) ∧
    (∀ k, (fetch_menu_items restaurant store_id loc cands).find?
        (fun i => decide (menuKey i = k)) =
      (fetch_menu_pre restaurant store_id loc cands).find?
        (fun i => decide (menuKey i = k))) := by
  refine ⟨?_, ?_, ?_, ?_⟩
  · intro i hi
    have hipre : i ∈ fetch_menu_pre restaurant store_id loc cands :=
      (dedupByKey_sublist menuKey [] _).subset hi
    obtain ⟨cand, hcand, heq⟩ := List.mem_filterMap.mp hipre
    refine ⟨cand, hcand, ?_⟩
    rcases hp : uber_parse_price cand.price with _ | price
    · rw [hp] at heq; simp at heq
    · rw [hp] at heq
      dsimp only at heq
      rcases hn : clean_name cand.name with _ | name
      · rw [hn] at heq; simp at heq
      · rw [hn] at heq
        dsimp only at heq
        by_cases hne : name = ""
        · rw [if_pos hne] at heq; simp at heq
        · rw [if_neg hne] at heq
          simp only [Option.some_inj] at heq
          subst heq
          exact ⟨rfl, rfl, hne⟩
  · exact dedupByKey_keys_nodup menuKey [] _
  · exact dedupByKey_sublist menuKey [] _
  · intro k
    exact dedupByKey_find? menuKey [] _ k (by simp)

/-- Witness candidates for C6: a duplicate key pair, an unresolvable
price and an absent name. -/
def c6Cands : List RawMenuCandidate :=
  [{ name := some "Big Mac", price := .vnum 599, category := some "Burgers" },
   { name := some "BIG MAC", price := .vnum 1099, category := some "BURGERS" },
   { name := none, price := .vnum 5, category := none },
   { name := some "No Price", price := .vnone, category := none }]

/-- Witness for C6 on the concrete candidates. -/
theorem C6_fetch_menu_price_present_and_dedup_witness :
    ((fetch_menu_items "R" none none c6Cands).map menuKey).Nodup ∧
    (fetch_menu_items "R" none none c6Cands).Sublist
      (fetch_menu_pre "R" none none c6Cands) ∧
    (fetch_menu_items "R" none none c6Cands).find?
        (fun i => decide (menuKey i = ("big mac", some "burgers"))) =
      (fetch_menu_pre "R" none none c6Cands).find?
        (fun i => decide (menuKey i = ("big mac", some "burgers"))) := by
  obtain ⟨_, h2, h3, h4⟩ :=
    C6_fetch_menu_price_present_and_dedup "R" none none c6Cands
  exact ⟨h2, h3, h4 ("big mac", some "burgers")⟩

/-! ## Claim C10 -/

/-- C10 (implicit): the coordinate check in `search_stores` uses Python
truthiness (`if not lat or not lon`), so a resolved latitude or
longitude of exactly 0.0 — caller-passed or geocoded — is treated like a
geocoding failure and yields the empty list. -/
theorem C10_zero_coordinate_yields_empty (latArg lonArg : Option ℚ)
    (geo : Option ℚ × Option ℚ) (res : Option (List UberEatsStore)) :
    (∀ la lo, latArg = some la → lonArg = some lo → la = 0 ∨ lo = 0 →
      search_stores latArg lonArg geo res = []) ∧
    (latArg = none ∨ lonArg = none → geo.1 = some 0 ∨ geo.2 = some 0 →
      search_stores latArg lonArg geo res = []) := by
  constructor
  · intro la lo hla hlo hz
    subst hla hlo
    simp only [search_stores, if_neg (by simp : ¬ (some la = none ∨ some lo = none))]
    rcases hz with hz | hz <;> subst hz <;> simp [pyFalsyCoord]
  · intro hnone hz
    simp only [search_stores, if_pos hnone]
    rcases hz with hz | hz <;> rw [hz] <;> simp [pyFalsyCoord]

/-- Witness for C10: caller passes latitude 0 (the equator) with a valid
longitude; the geocoder and the search would both succeed, yet the
result is empty. -/
theorem C10_zero_coordinate_yields_empty_witness :
    search_stores (some 0) (some 5) (some 1, some 2)
      (some [{ name := "McDonalds", store_url := "u", store_id := "s",
               address := none, distance := none, latitude := none,
               longitude := none }]) = [] :=
  (C10_zero_coordinate_yields_empty (some 0) (some 5) (some 1, some 2)
      (some [{ name := "McDonalds", store_url := "u", store_id := "s",
               address := none, distance := none, latitude := none,
               longitude := none }])).1
    0 5 rfl rfl (Or.inl rfl)

/-! ## Claim C2 (corrected) -/

/-- C2 counterexample: the claim asserts the boundary value 20 maps to
20/100 = 0.20, but the code's test is strictly `> 20`, so
`_parse_price(20)` returns 20, not 0.20. -/
theorem C2_price_normalization_counterexample :
    uber_parse_price (.vnum 20) = some 20 ∧
      uber_parse_price (.vnum 20) ≠ some ((20 : ℚ) / 100) := by
  have h20 : uber_parse_price (.vnum 20) = some (pyRound 20 2) := by
    simp only [uber_parse_price, if_neg (by norm_num : ¬ (20 : ℚ) < 20)]
  have hr : pyRound (20 : ℚ) 2 = 20 := by
    rw [pyRound_eq_of_int (show (20 : ℚ) * 10 ^ 2 = ((2000 : ℤ) : ℚ) by norm_num)]
    norm_num
  constructor
  · rw [h20, hr]
  · rw [h20, hr]
    simp only [ne_eq, Option.some_inj]
    norm_num

/-- C2 as amended: numeric prices strictly greater than 20 are divided
by 100 (cents) and rounded to 2 decimals, numeric prices ≤ 20 are kept
in major units (so 1299 ↦ 12.99, 12.99 ↦ 12.99, and the boundary 20 ↦
20, the `> 20` test being exclusive); string prices are parsed via the
first-decimal-number scan of the comma-stripped string, with no cents
division. -/
theorem C2_price_normalization :
    (∀ q : ℚ, 20 < q → uber_parse_price (.vnum q) = some (pyRound (q / 100) 2)) ∧
    (∀ q : ℚ, q ≤ 20 → uber_parse_price (.vnum q) = some (pyRound q 2)) ∧
    uber_parse_price (.vnum 1299) = some ((1299 : ℚ) / 100) ∧
    uber_parse_price (.vnum ((1299 : ℚ) / 100)) = some ((1299 : ℚ) / 100) ∧
    uber_parse_price (.vnum 20) = some 20 ∧
    (∀ (s : String) (a : ℚ),
      scanNumber (some 2) (s.data.filter (fun c => c ≠ ',')) = some a →
      uber_parse_price (.vstr s) = some (pyRound a 2)) ∧
    (∀ s : String,
      scanNumber (some 2) (s.data.filter (fun c => c ≠ ',')) = none →
      uber_parse_price (.vstr s) = none) := by
  have hround : pyRound ((1299 : ℚ) / 100) 2 = (1299 : ℚ) / 100 := by
    rw [pyRound_eq_of_int
      (show ((1299 : ℚ) / 100) * 10 ^ 2 = ((1299 : ℤ) : ℚ) by norm_num)]
    norm_num
  refine ⟨?_, ?_, ?_, ?_, ?_, ?_, ?_⟩
  · intro q h
    simp only [uber_parse_price, if_pos h]
  · intro q h
    simp only [uber_parse_price, if_neg (not_lt.mpr h)]
  · simp only [uber_parse_price, if_pos (by norm_num : (20 : ℚ) < 1299)]
    rw [show (1299 : ℚ) / 100 = (1299 : ℚ) / 100 from rfl, hround]
  · simp only [uber_parse_price,
      if_neg (by norm_num : ¬ (20 : ℚ) < (1299 : ℚ) / 100)]
    rw [hround]
  · exact (C2_price_normalization_counterexample).1
  · intro s a h
    simp only [uber_parse_price]
    rw [h]
  · intro s h
    simp only [uber_parse_price]
    rw [h]

/-- Witness for the amended C2 at 25 (cents), 12 (major units) and the
string price `"$7"`. -/
theorem C2_price_normalization_witness :
    uber_parse_price (.vnum 25) = some (pyRound ((25 : ℚ) / 100) 2) ∧
    uber_parse_price (.vnum 12) = some (pyRound (12 : ℚ) 2) ∧
    uber_parse_price (.vstr "$7") = some (pyRound (7 : ℚ) 2) := by
  obtain ⟨h1, h2, _, _, _, h6, _⟩ := C2_price_normalization
  refine ⟨h1 25 (by norm_num), h2 12 (by norm_num), h6 "$7" 7 ?_⟩
  simp +decide [scanNumber, digitsToNat]

/-! ## Claim C4 -/

/-- C4: the DocumentScraper stages form a strict fallback chain:
if structured-data parsing yields at least one item,
`scrape_restaurant` returns exactly those items (the heuristic and
text-scan stages contribute nothing); within the heuristic stage the
text scan contributes only when the CSS-selector stage yielded nothing;
and when structured data yields nothing the result is exactly the
heuristic stage's output — stage outputs are never merged. -/
theorem C4_fallback_chain_strict (slug : String) (doc : SoupDoc)
    (restaurant url : String) (h : lookupTarget slug = some (restaurant, url)) :
    (parse_structured_data restaurant url doc.ldjsonBlocks ≠ [] →
      scrape_restaurant slug doc =
        some (parse_structured_data restaurant url doc.ldjsonBlocks)) ∧
    (heuristic_selector_pass restaurant url [] doc.selectorHits ≠ [] →
      parse_with_heuristics restaurant url doc.selectorHits doc.pageText =
        heuristic_selector_pass restaurant url [] doc.selectorHits) ∧
    (parse_structured_data restaurant url doc.ldjsonBlocks = [] →
      scrape_restaurant slug doc =
        some (parse_with_heuristics restaurant url doc.selectorHits doc.pageText)) := by
  refine ⟨?_, ?_, ?_⟩
  · intro hne
    unfold scrape_restaurant
    rw [h]
    dsimp only
    rw [if_neg (by simpa using hne)]
  · intro hne
    unfold parse_with_heuristics
    rw [if_neg (by simpa using hne)]
  · intro hempty
    unfold scrape_restaurant
    rw [h]
    dsimp only
    rw [if_pos (by simpa using hempty)]

/-- Witness structured-data entry for C4: a valid schema.org MenuItem. -/
def c4Entry : Json :=
  .obj [("@type", .str "MenuItem"),
        ("name", .str "Cheesy Gordita Crunch"),
        ("offers", .obj [("price", .str "$3.49")]),
        ("category", .str "Specialties")]

/-- Witness document for C4: valid structured data AND conflicting
heuristic-matchable markup AND text-scannable page text, all present at
once. -/
def c4Doc : SoupDoc :=
  { ldjsonBlocks := [some (.obj [("@type", .str "Menu"),
      ("hasMenuItem", .arr [c4Entry])])],
    selectorHits := [{ dataName := some "Conflicting Heuristic Item",
                       ariaLabel := none, headlineText := none,
                       text := "Conflicting Heuristic Item $9.99" }],
    pageText := "Text Scan Item $1.23" }

/-- Witness for C4: on a document carrying both valid structured data
and conflicting heuristic markup, only the structured-data items appear;
and on the same document the selector stage, when it applies, fully
determines the heuristic result. -/
theorem C4_fallback_chain_strict_witness :
    scrape_restaurant "taco-bell" c4Doc =
      some (parse_structured_data "Taco Bell" "https://www.tacobell.com/food"
        c4Doc.ldjsonBlocks) ∧
    parse_with_heuristics "Taco Bell" "https://www.tacobell.com/food"
        c4Doc.selectorHits c4Doc.pageText =
      heuristic_selector_pass "Taco Bell" "https://www.tacobell.com/food"
        [] c4Doc.selectorHits := by
  obtain ⟨h1, h2, _⟩ := C4_fallback_chain_strict "taco-bell" c4Doc
    "Taco Bell" "https://www.tacobell.com/food" (by decide)
  refine ⟨h1 ?_, h2 ?_⟩
  · simp +decide [parse_structured_data, flatten_ldjson, flattenLdKeys,
      flattenLdList, coerce_menu_item, jGet, pyOrJson, Json.truthy, pyLower,
      ldKeys, c4Doc, c4Entry, List.find?, Option.map]
  · simp +decide [heuristic_selector_pass, elementName, truthyStr,
      looks_like_menu_item, pySplitWs, pyLower, stripWs, c4Doc, pySpace]

end BiteRank
